import Mathlib

/-!
Verification of the Filen WebDAV gateway (filen-webdav) against its
natural-language specification.  JavaScript strings are embedded as `List Char`;
JavaScript numbers occurring in the verified code paths are integers and are
embedded as `Int`/`Nat`.  External collaborators (the storage SDK, `fs`,
`mime-types`, `picomatch`, `decodeURI`, `new URL`) are modelled by abstract
functions in an environment record or by their documented contracts; everything
else is translated directly from the TypeScript source.
-/

namespace FilenWebdav

/-- JavaScript strings are modelled as lists of characters. -/
abbrev JSStr := List Char

/-- Model of JavaScript `String.prototype.split` with a single-character
separator (`range.split("=")`, `rangeValue.split("-")`,
`credentials.split(":")` in the source all use one-character separators). -/
def jsSplitChar (c : Char) : JSStr → List JSStr
  | [] => [[]]
  | x :: xs =>
    match jsSplitChar c xs with
    | [] => [[x]]
    | t :: ts => if x = c then [] :: t :: ts else (x :: t) :: ts

/-- Index of the first occurrence of `sep` as a contiguous substring, used to
model multi-character `String.prototype.split`. -/
def findSub (sep : JSStr) : JSStr → Option Nat
  | [] => none
  | c :: rest => if sep.isPrefixOf (c :: rest) then some 0 else (findSub sep rest).map (· + 1)

/-- Fuel-driven worker for `jsSplitStr`. -/
def jsSplitStrGo (sep : JSStr) : Nat → JSStr → List JSStr
  | 0, s => [s]
  | fuel + 1, s =>
    match findSub sep s with
    | none => [s]
    | some i => s.take i :: jsSplitStrGo sep fuel (s.drop (i + sep.length))

/-- Model of JavaScript `String.prototype.split` with a multi-character,
non-empty separator (`password.split("&twoFactorAuthentication=")` in the
source).  The fuel `s.length + 1` always suffices because every recursive step
consumes at least one character. -/
def jsSplitStr (sep s : JSStr) : List JSStr :=
  jsSplitStrGo sep (s.length + 1) s

/-- Numeric value of a list of decimal digits, most significant first. -/
def digitsVal (ds : JSStr) : Nat :=
  ds.foldl (fun a c => 10 * a + (c.toNat - 48)) 0

/-- The leading run of decimal digits of a string, as a number; `none` when the
string does not start with a digit (JavaScript `NaN`). -/
def leadingDigits (s : JSStr) : Option Nat :=
  let ds := s.takeWhile (fun c => c.isDigit)
  if ds = [] then none else some (digitsVal ds)

/-- Model of JavaScript `parseInt(s, 10)`: skip leading whitespace, accept an
optional sign, read the leading run of decimal digits, `NaN` (here `none`) when
there is none; trailing garbage is ignored. -/
def jsParseInt (s : JSStr) : Option Int :=
  let t := s.dropWhile (fun c => c.isWhitespace)
  if t.head? = some '-' then (leadingDigits t.tail).map (fun n => -(n : Int))
  else if t.head? = some '+' then (leadingDigits t.tail).map (fun n => (n : Int))
  else (leadingDigits t).map (fun n => (n : Int))

/-- `utils.ts` `removeLastSlash`: drop a single trailing slash. -/
def removeLastSlash (s : JSStr) : JSStr :=
  if s.getLast? = some '/' then s.dropLast else s

/-- `utils.ts` `parseByteRange(range, totalLength)`: parse a `Range` header
value.  Returns `none` exactly when the source returns `null`. -/
def parseByteRange (range : JSStr) (totalLength : Int) : Option (Int × Int) :=
  let parts := jsSplitChar '=' range
  let unit := parts[0]?
  let rangeValue := parts[1]?
  if unit ≠ some ("bytes".data) ∨ rangeValue = none ∨ rangeValue = some [] then none
  else
    let rv := rangeValue.getD []
    let parts2 := jsSplitChar '-' rv
    let startStr := parts2[0]?
    let endStr := parts2[1]?
    if startStr = none ∨ startStr = some [] then none
    else
      match jsParseInt (startStr.getD []) with
      | none => none
      | some start =>
        let endVal : Option Int :=
          match endStr with
          | none => some (totalLength - 1)
          | some e => if e = [] then some (totalLength - 1) else jsParseInt e
        match endVal with
        | none => none
        | some e =>
          if start < 0 ∨ e ≥ totalLength ∨ start > e then none
          else some (start, e)

/-- Node `path.posix.basename` for the paths handled here (absolute POSIX
paths with no trailing slash): the segment after the last `/`. -/
def posixBasename (p : JSStr) : JSStr :=
  (p.reverse.takeWhile (· ≠ '/')).reverse

/-- Node `path.posix.dirname` for the paths handled here: everything before
the last `/`, with `"."` for slash-free input and `"/"` kept for the root. -/
def posixDirname (p : JSStr) : JSStr :=
  let base := posixBasename p
  let rem := p.take (p.length - base.length)
  if rem = [] then (".".data)
  else if rem = ['/'] then ['/']
  else rem.dropLast

/-- File kind of a backend `FSStats` record. -/
inductive FType where
  | file
  | directory
deriving DecidableEq, Repr

/-- The fields of the SDK's `FSStats` record read by the verified handlers. -/
structure Stats where
  type : FType
  uuid : Nat
  name : JSStr
  size : Int
  chunks : Int
  mtimeMs : Int
  birthtimeMs : Int
  lastModified : Int
  mime : JSStr
  key : JSStr
  bucket : JSStr
  region : JSStr
  version : Int
deriving DecidableEq, Repr

/-- `index.ts` `Resource`: `FSStats` plus `url`, `path`, `isVirtual` and the
optional `tempDiskId` of disk-tier resources. -/
structure Resource where
  type : FType
  uuid : Nat
  name : JSStr
  size : Int
  chunks : Int
  mtimeMs : Int
  birthtimeMs : Int
  lastModified : Int
  mime : JSStr
  key : JSStr
  bucket : JSStr
  region : JSStr
  version : Int
  url : JSStr
  path : JSStr
  isVirtual : Bool
  tempDiskId : Option JSStr
deriving DecidableEq, Repr

/-- Modelled from the spec: the backend SDK state visible to this server
(§6 of the spec).  `items` is the metadata index consulted by `stat` /
`_removeItem` / `_addItem`; `content` maps a file uuid to its plaintext bytes
as produced by the download stream; `baseFolderUUID` is the root's uuid. -/
structure Backend where
  items : JSStr → Option Stats
  content : Nat → Option (List Nat)
  baseFolderUUID : Nat

/-- The server state the claims quantify over: the per-user tier maps of
`WebDAVServer` (`virtualFiles`, `tempDiskFiles`), the scratch directory
contents keyed by `tempDiskId`, the backend, and a counter supplying fresh
uuids for `uuidv4()`. -/
structure ServerState where
  virtualFiles : JSStr → JSStr → Option Resource
  tempDiskFiles : JSStr → JSStr → Option Resource
  diskStore : JSStr → Option (List Nat)
  backend : Backend
  nextUuid : Nat

/-- The request-independent environment: abstract models of the external
collaborators used by the handlers.  `decodeURI` and `parseURLPathname`
(JavaScript `decodeURI` and `new URL(...).pathname`), `mimeLookup`
(`mime-types`' `lookup`, `none` for `false`), `putMatcher` (the `picomatch`
matcher built from `tempFilesToStoreOnDisk`, `none` when the list is empty),
`tempDiskFileId` (`utils.ts` `pathToTempDiskFileId`, whose xxHash32 core is an
external library), the SDK constant `UPLOAD_CHUNK_SIZE`, `Date.now()`, and
whether `getSDKForUser` finds an SDK for the authenticated user. -/
structure Env where
  decodeURI : JSStr → JSStr
  parseURLPathname : JSStr → Option JSStr
  mimeLookup : JSStr → Option JSStr
  putMatcher : Option (JSStr → Bool)
  tempDiskFileId : JSStr → JSStr → JSStr
  uploadChunkSize : Int
  now : Int
  sdkPresent : Bool

/-- An HTTP response as produced by `responses.ts`.  Header strings whose
content is fixed by their numeric parts (`Content-Range`) are modelled
structurally; `body` is `some bytes` when a body is streamed and `none` for
the empty-body and header-only responses; `davXml` marks the DAV multi-status
XML bodies. -/
structure Resp where
  status : Nat
  contentLength : Option Int := none
  contentType : Option JSStr := none
  contentRange : Option (Int × Int × Int) := none
  acceptRanges : Bool := false
  body : Option (List Nat) := none
  davXml : Bool := false
deriving DecidableEq, Repr

/-- `responses.ts` `Responses.ok`. -/
def Responses.ok : Resp := { status := 200, contentLength := some 0 }

/-- `responses.ts` `Responses.created`. -/
def Responses.created : Resp := { status := 201, contentLength := some 0 }

/-- `responses.ts` `Responses.noContent`. -/
def Responses.noContent : Resp := { status := 204, contentLength := some 0 }

/-- `responses.ts` `Responses.badRequest`. -/
def Responses.badRequest : Resp := { status := 400, contentLength := some 0 }

/-- `responses.ts` `Responses.notAuthorized`. -/
def Responses.notAuthorized : Resp := { status := 401, contentLength := some 0 }

/-- `responses.ts` `Responses.forbidden`. -/
def Responses.forbidden : Resp := { status := 403, contentLength := some 0 }

/-- `responses.ts` `Responses.alreadyExists` (also status `403`). -/
def Responses.alreadyExists : Resp := { status := 403, contentLength := some 0 }

/-- `responses.ts` `Responses.notFound`: DAV 404 multi-status with XML body. -/
def Responses.notFound : Resp :=
  { status := 404, contentType := some ("application/xml; charset=utf-8".data), davXml := true }

/-- `responses.ts` `Responses.preconditionFailed`. -/
def Responses.preconditionFailed : Resp := { status := 412, contentLength := some 0 }

/-- `responses.ts` `Responses.internalError`. -/
def Responses.internalError : Resp := { status := 500, contentLength := some 0 }

/-- Wrap a backend `stat` result as a backend-tier `Resource`
(`index.ts` `urlToResource` / `pathToResource`). -/
def statsToResource (backend : Backend) (stats : Stats) (path : JSStr) : Resource :=
  { type := stats.type
    uuid := stats.uuid
    name := stats.name
    size := stats.size
    chunks := stats.chunks
    mtimeMs := stats.mtimeMs
    birthtimeMs := stats.birthtimeMs
    lastModified := stats.lastModified
    mime := stats.mime
    key := stats.key
    bucket := stats.bucket
    region := stats.region
    version := stats.version
    url := path ++ (if stats.type = .directory ∧ stats.uuid ≠ backend.baseFolderUUID then ['/'] else [])
    path := path
    isVirtual := false
    tempDiskId := none }

/-- `index.ts` `WebDAVServer.urlToResource`: decode the request URL, strip a
trailing slash (except for the root), and resolve virtual tier, then disk
tier, then backend `stat`; backend not-found surfaces as `none`. -/
def urlToResource (st : ServerState) (env : Env) (username rawUrl : JSStr) : Option Resource :=
  let url := env.decodeURI rawUrl
  let path := if url = ['/'] then url else removeLastSlash url
  match st.virtualFiles username path with
  | some r => some r
  | none =>
    match st.tempDiskFiles username path with
    | some r => some r
    | none =>
      if env.sdkPresent then
        match st.backend.items path with
        | some stats => some (statsToResource st.backend stats path)
        | none => none
      else none

/-- `index.ts` `WebDAVServer.pathToResource`: like `urlToResource` but for an
explicit, already decoded path; the tier maps are consulted with the path as
given while `stat` strips a trailing slash (except for the root). -/
def pathToResource (st : ServerState) (env : Env) (username path : JSStr) : Option Resource :=
  match st.virtualFiles username path with
  | some r => some r
  | none =>
    match st.tempDiskFiles username path with
    | some r => some r
    | none =>
      if env.sdkPresent then
        match st.backend.items (if path = ['/'] then path else removeLastSlash path) with
        | some stats => some (statsToResource st.backend stats path)
        | none => none
      else none

/-- JavaScript `String.prototype.includes`: substring containment. -/
def jsIncludes (hay needle : JSStr) : Bool :=
  decide (List.IsInfix needle hay)

/-- JavaScript truthiness of an optional string (`undefined` and `""` are
falsy). -/
def jsTruthy : Option JSStr → Bool
  | none => false
  | some s => s ≠ []

/-- JavaScript `a || b` on optional header strings. -/
def jsOrStr (a b : Option JSStr) : Option JSStr :=
  if jsTruthy a then a else b

/-- Bytes `start..e` (inclusive) of `l`: the contract of both
`fs.createReadStream({start, end})` and the SDK download stream (§6). -/
def listSlice (start e : Int) (l : List Nat) : List Nat :=
  (l.drop start.toNat).take (e - start + 1).toNat

/-- `Math.ceil(a / b)` for the nonnegative integers appearing here. -/
def intCeilDiv (a b : Int) : Int := (a + b - 1) / b

/-- The default mime type `application/octet-stream`. -/
def octetStream : JSStr := "application/octet-stream".data

/-- Update one path of a per-user tier map. -/
def mapSet (m : JSStr → JSStr → Option Resource) (u p : JSStr) (r : Resource) :
    JSStr → JSStr → Option Resource :=
  fun u' p' => if u' = u ∧ p' = p then some r else m u' p'

/-- Remove one path from a per-user tier map (`delete map[path]`). -/
def mapDel (m : JSStr → JSStr → Option Resource) (u p : JSStr) :
    JSStr → JSStr → Option Resource :=
  fun u' p' => if u' = u ∧ p' = p then none else m u' p'

/-- Update one key of the scratch-file store. -/
def storeSet (m : JSStr → Option (List Nat)) (k : JSStr) (v : Option (List Nat)) :
    JSStr → Option (List Nat) :=
  fun k' => if k' = k then v else m k'

/-- Update one path of the backend metadata index. -/
def itemsSet (m : JSStr → Option Stats) (k : JSStr) (v : Option Stats) :
    JSStr → Option Stats :=
  fun k' => if k' = k then v else m k'

/-- Update one uuid of the backend content store. -/
def contentSet (m : Nat → Option (List Nat)) (k : Nat) (v : Option (List Nat)) :
    Nat → Option (List Nat) :=
  fun k' => if k' = k then v else m k'

/-- Modelled from the spec: SDK `mkdir({path})` (§6), idempotent; creates the
directory when absent (intermediate directories are not needed by any claim). -/
def backendMkdir (st : ServerState) (path : JSStr) : ServerState :=
  match st.backend.items path with
  | some _ => st
  | none =>
    { st with
      backend :=
        { st.backend with
          items := itemsSet st.backend.items path
            (some
              { type := .directory, uuid := st.nextUuid, name := posixBasename path, size := 0,
                chunks := 0, mtimeMs := 0, birthtimeMs := 0, lastModified := 0, mime := [],
                key := [], bucket := [], region := [], version := 2 }) }
      nextUuid := st.nextUuid + 1 }

/-- Modelled from the spec: SDK `unlink({path, permanent})` (§6) removes the
path from the backend index; the trash/permanent distinction and unlink
failures on missing paths are not needed by any claim. -/
def backendUnlink (st : ServerState) (path : JSStr) : ServerState :=
  { st with backend := { st.backend with items := itemsSet st.backend.items path none } }

/-- Modelled from the spec: SDK `rename({from, to})` (§6) moves the index
entry and renames it to the destination's basename. -/
def backendRename (st : ServerState) (fromPath toPath : JSStr) : ServerState :=
  match st.backend.items fromPath with
  | none => st
  | some stats =>
    { st with
      backend :=
        { st.backend with
          items := itemsSet (itemsSet st.backend.items fromPath none) toPath
            (some { stats with name := posixBasename toPath }) } }

/-- Modelled from the spec: SDK `cp({from, to})` (§6) copies the file to a
fresh uuid at the destination path. -/
def backendCp (st : ServerState) (fromPath toPath : JSStr) : ServerState :=
  match st.backend.items fromPath with
  | none => st
  | some stats =>
    { st with
      backend :=
        { st.backend with
          items := itemsSet st.backend.items toPath
            (some { stats with name := posixBasename toPath, uuid := st.nextUuid })
          content := contentSet st.backend.content st.nextUuid (st.backend.content stats.uuid) }
      nextUuid := st.nextUuid + 1 }

/-- `handlers/get.ts` `Get.handle`: resolve, 404 for missing or directory,
virtual files answered empty with `200`, otherwise optional `Range`
(or legacy `Content-Range`) handling and a body streamed from the scratch
file or the backend download stream.  A body of `none` models a failed
stream (the connection is torn down after the headers).  `GET` does not
mutate the server state. -/
def getHandle (st : ServerState) (env : Env) (username rawUrl : JSStr)
    (rangeHdr contentRangeHdr : Option JSStr) : Resp :=
  match urlToResource st env username rawUrl with
  | none => Responses.notFound
  | some resource =>
    if resource.type = .directory then Responses.notFound
    else if resource.isVirtual then
      { status := 200, contentType := some resource.mime, contentLength := some 0, body := some [] }
    else if ¬ env.sdkPresent then Responses.notAuthorized
    else
      let mimeType := (env.mimeLookup resource.name).getD octetStream
      let totalLength := resource.size
      let range := jsOrStr rangeHdr contentRangeHdr
      let ranged : Option (Int × Int) :=
        if jsTruthy range then
          match parseByteRange (range.getD []) totalLength with
          | none => none
          | some r => some r
        else some (0, totalLength - 1)
      match ranged with
      | none => Responses.badRequest
      | some (start, e) =>
        let content : Option (List Nat) :=
          if jsTruthy resource.tempDiskId then st.diskStore (resource.tempDiskId.getD [])
          else st.backend.content resource.uuid
        { status := if jsTruthy range then 206 else 200
          contentLength := some (if jsTruthy range then e - start + 1 else resource.size)
          contentRange := if jsTruthy range then some (start, e, totalLength) else none
          contentType := some mimeType
          acceptRanges := true
          body := content.map (listSlice start e) }

/-- `handlers/head.ts` `Head.handle`: resolve, 404 for missing, 403 for a
directory, then the same `Range` handling as `GET` with no body. -/
def headHandle (st : ServerState) (env : Env) (username rawUrl : JSStr)
    (rangeHdr contentRangeHdr : Option JSStr) : Resp :=
  match urlToResource st env username rawUrl with
  | none => Responses.notFound
  | some resource =>
    if resource.type = .directory then Responses.forbidden
    else
      let mimeType := (env.mimeLookup resource.name).getD octetStream
      let totalLength := resource.size
      let range := jsOrStr rangeHdr contentRangeHdr
      let ranged : Option (Int × Int) :=
        if jsTruthy range then
          match parseByteRange (range.getD []) totalLength with
          | none => none
          | some r => some r
        else some (0, totalLength - 1)
      match ranged with
      | none => { status := 400 }
      | some (start, e) =>
        { status := if jsTruthy range then 206 else 200
          contentLength := some (if jsTruthy range then e - start + 1 else resource.size)
          contentRange := if jsTruthy range then some (start, e, totalLength) else none
          contentType := some mimeType
          acceptRanges := true }

/-- Outcome of `middlewares/auth.ts` `Auth.filenAuth` for one request, up to
the point where it either binds the username, attempts a backend login with
the parsed credentials, or throws (responding `401`). -/
inductive FilenAuthResult where
  | cachedBind (username : JSStr)
  | loginAttempt (email password : JSStr) (twoFactorCode : Option JSStr)
  | thrown (msg : JSStr)
deriving DecidableEq, Repr

/-- `middlewares/auth.ts` `Auth.filenAuth`: `authedPassword` is
`authedFilenUsers[username]`.  A cached byte-identical raw password binds
immediately; otherwise the password is parsed
(`password=<secret>[&twoFactorAuthentication=<otp>]`) and a backend login is
attempted; any throw surfaces as `401`. -/
def filenAuthAttempt (authedPassword : Option JSStr) (username password : JSStr) :
    FilenAuthResult :=
  if jsTruthy authedPassword ∧ authedPassword = some password then .cachedBind username
  else if ¬ (("password=".data).isPrefixOf password) then
    if password = [] then .thrown ("Could not parse password.".data)
    else .loginAttempt username password none
  else
    let passwordEx := jsSplitStr ("&twoFactorAuthentication=".data) password
    if ¬ jsTruthy passwordEx[0]? ∨ ¬ (("password=".data).isPrefixOf (passwordEx[0]?.getD [])) then
      .thrown ("Credentials wrongly formatted.".data)
    else if passwordEx.length ≥ 2 then
      .thrown ("Could not parse password.".data)
    else
      let parsedPassword := (passwordEx[0]?.getD []).drop 9
      if parsedPassword = [] then .thrown ("Could not parse password.".data)
      else .loginAttempt username parsedPassword none

/-- Outcome of `middlewares/auth.ts` `Auth.basic` on the decoded Basic
credential string: bind via `defaultAuth`, dispatch to `filenAuth`
(proxy mode), or throw (the middleware then responds `401`). -/
inductive BasicOutcome where
  | defaultBound (username : JSStr)
  | filen (r : FilenAuthResult)
  | rejected
deriving DecidableEq, Repr

/-- `middlewares/auth.ts` `Auth.basic` composed with `Auth.defaultAuth`,
starting from the base64-decoded credential string: split on `":"`, take the
first two fields, reject empties, dispatch to `filenAuth` when the username
contains `@`, the password starts with `password=` and the server is in proxy
mode, else compare against the configured credentials. -/
def basicAuth (proxyMode : Bool) (cfgU cfgP : JSStr) (authedPassword : Option JSStr)
    (credentials : JSStr) : BasicOutcome :=
  let parts := jsSplitChar ':' credentials
  match parts[0]?, parts[1]? with
  | some username, some password =>
    if username = [] ∨ password = [] then .rejected
    else if username.contains '@' ∧ (("password=".data).isPrefixOf password) ∧ proxyMode then
      .filen (filenAuthAttempt authedPassword username password)
    else if username = cfgU ∧ password = cfgP then .defaultBound cfgU
    else .rejected
  | _, _ => .rejected

/-- Truthiness-style check `resource && resource.type === "directory"`. -/
def optIsDirectory : Option Resource → Bool
  | some r => decide (r.type = FType.directory)
  | none => false

/-- Check `!resource || resource.type !== "directory"`. -/
def optNotDirectory : Option Resource → Bool
  | some r => decide (r.type ≠ FType.directory)
  | none => true

/-- Check `putMatcher && (putMatcher(path) || putMatcher(name))`. -/
def matcherHits : Option (JSStr → Bool) → JSStr → JSStr → Bool
  | some m, path, name => m path || m name
  | none, _, _ => false

/-- Result of `Put.handle`: the new server state, the response, and whether
the backend upload API (`cloud().uploadLocalFileStream`) was invoked. -/
structure PutOutcome where
  st : ServerState
  resp : Resp
  uploadCalled : Bool

/-- `handlers/put.ts` `Put.handle`: `body` is the full request body (the
body-framing middleware makes `firstBodyChunk` empty iff the body is empty).
Directory at the target → `403`; parent ensured via `mkdir` then re-resolved,
non-directory → `412`; empty body → virtual resource; matched by the
`tempFilesToStoreOnDisk` matcher → scratch file and disk-tier resource;
otherwise stream to the backend upload API and refresh the metadata index.
The upload error callback (a `500` after purging both tier maps) is not
modelled; no claim depends on upload failures. -/
def putHandle (st : ServerState) (env : Env) (username rawUrl : JSStr) (body : List Nat) :
    PutOutcome :=
  let path := removeLastSlash (env.decodeURI rawUrl)
  let parentPath := posixDirname path
  let name := posixBasename path
  let thisResource := pathToResource st env username path
  if optIsDirectory thisResource then
    { st := st, resp := Responses.alreadyExists, uploadCalled := false }
  else if ¬ env.sdkPresent then
    { st := st, resp := Responses.notAuthorized, uploadCalled := false }
  else
    let st₁ := backendMkdir st parentPath
    match pathToResource st₁ env username parentPath with
    | none => { st := st₁, resp := Responses.preconditionFailed, uploadCalled := false }
    | some parentResource =>
      if parentResource.type ≠ .directory then
        { st := st₁, resp := Responses.preconditionFailed, uploadCalled := false }
      else if body = [] then
        let r : Resource :=
          { type := .file, uuid := st₁.nextUuid, name := name, size := 0, chunks := 1,
            mtimeMs := env.now, birthtimeMs := env.now, lastModified := env.now,
            mime := (env.mimeLookup name).getD octetStream,
            key := [], bucket := [], region := [], version := 2,
            url := path, path := path, isVirtual := true, tempDiskId := none }
        { st :=
            { st₁ with
              virtualFiles := mapSet st₁.virtualFiles username path r
              tempDiskFiles := mapDel st₁.tempDiskFiles username path
              nextUuid := st₁.nextUuid + 1 }
          resp := Responses.created
          uploadCalled := false }
      else if matcherHits env.putMatcher path name then
        let tid := env.tempDiskFileId path username
        let r : Resource :=
          { type := .file, uuid := st₁.nextUuid, name := name, size := (body.length : Int),
            chunks := intCeilDiv (body.length : Int) env.uploadChunkSize,
            mtimeMs := env.now, birthtimeMs := env.now, lastModified := env.now,
            mime := (env.mimeLookup name).getD octetStream,
            key := [], bucket := [], region := [], version := 2,
            url := path, path := path, isVirtual := false, tempDiskId := some tid }
        { st :=
            { st₁ with
              diskStore := storeSet st₁.diskStore tid (some body)
              tempDiskFiles := mapSet st₁.tempDiskFiles username path r
              virtualFiles := mapDel st₁.virtualFiles username path
              nextUuid := st₁.nextUuid + 1 }
          resp := Responses.created
          uploadCalled := false }
      else
        let item : Stats :=
          { type := .file, uuid := st₁.nextUuid, name := name, size := (body.length : Int),
            chunks := intCeilDiv (body.length : Int) env.uploadChunkSize,
            mtimeMs := env.now, birthtimeMs := env.now, lastModified := env.now,
            mime := (env.mimeLookup name).getD octetStream,
            key := [], bucket := [], region := [], version := 2 }
        { st :=
            { st₁ with
              virtualFiles := mapDel st₁.virtualFiles username path
              tempDiskFiles := mapDel st₁.tempDiskFiles username path
              backend :=
                { st₁.backend with
                  items := itemsSet st₁.backend.items path (some item)
                  content := contentSet st₁.backend.content st₁.nextUuid (some body) }
              nextUuid := st₁.nextUuid + 1 }
          resp := Responses.created
          uploadCalled := true }

/-- `handlers/mkcol.ts` `Mkcol.handle`: strip a trailing slash, decode,
resolve parent and target; parent missing or non-directory → `403`
(`Responses.forbidden`), target already a directory → `403`, else backend
`mkdir` and `201`. -/
def mkcolHandle (st : ServerState) (env : Env) (username rawUrl : JSStr) :
    ServerState × Resp :=
  let path := env.decodeURI (if rawUrl.getLast? = some '/' then rawUrl.dropLast else rawUrl)
  let parentPath := posixDirname path
  let parentResource := pathToResource st env username parentPath
  let thisResource := pathToResource st env username path
  if optNotDirectory parentResource then
    (st, Responses.forbidden)
  else if optIsDirectory thisResource then
    (st, Responses.forbidden)
  else if ¬ env.sdkPresent then (st, Responses.notAuthorized)
  else (backendMkdir st path, Responses.created)

/-- `handlers/move.ts` `Move.handle`: validate and decode the `Destination`
header, reject traversal prefixes, resolve source and destination, handle the
no-op and already-exists cases, then move within the source's tier (virtual
map rename / scratch-file rename / backend `rename`), purging an overwritten
destination first.  Scratch-file and backend errors (which would surface as
`500`) are not modelled; no claim depends on them. -/
def moveHandle (st : ServerState) (env : Env) (username rawUrl : JSStr)
    (destinationHeader overwriteHeader : Option JSStr) (hostname protocol : JSStr) :
    ServerState × Resp :=
  let overwrite := overwriteHeader = some ("T".data)
  match destinationHeader with
  | none => (st, Responses.badRequest)
  | some dh =>
    if ¬ (jsIncludes dh hostname) ∨ ¬ (jsIncludes dh protocol) then (st, Responses.badRequest)
    else
      match env.parseURLPathname dh with
      | none => (st, Responses.badRequest)
      | some pathname =>
        let destination := env.decodeURI pathname
        if ("..".data).isPrefixOf destination ∨ ("./".data).isPrefixOf destination
            ∨ ("../".data).isPrefixOf destination then
          (st, Responses.forbidden)
        else
          let destinationResource := pathToResource st env username (removeLastSlash destination)
          match urlToResource st env username rawUrl with
          | none => (st, Responses.notFound)
          | some resource =>
            if resource.path = destination then (st, Responses.created)
            else if ¬ overwrite ∧ destinationResource.isSome then (st, Responses.alreadyExists)
            else if ¬ env.sdkPresent then (st, Responses.notAuthorized)
            else
              let moved : Resource :=
                { resource with
                  url := destination
                  path := destination
                  name := posixBasename destination }
              if resource.isVirtual then
                let fallback :=
                  ({ st with
                      virtualFiles :=
                        mapDel (mapSet st.virtualFiles username destination moved)
                          username resource.path },
                    Responses.created)
                match destinationResource with
                | some d =>
                  if overwrite then
                    let stA :=
                      if jsTruthy d.tempDiskId then
                        { st with diskStore := storeSet st.diskStore (d.tempDiskId.getD []) none }
                      else st
                    let stB := if ¬ d.isVirtual then backendUnlink stA d.path else stA
                    let stC :=
                      { stB with
                        virtualFiles :=
                          mapDel (mapSet stB.virtualFiles username destination moved)
                            username resource.path }
                    (stC, Responses.noContent)
                  else fallback
                | none => fallback
              else if jsTruthy resource.tempDiskId then
                let srcId := resource.tempDiskId.getD []
                let destId := env.tempDiskFileId destination username
                let movedDisk : Resource := { moved with tempDiskId := some destId }
                let fallback :=
                  let v := st.diskStore srcId
                  ({ st with
                      diskStore := storeSet (storeSet st.diskStore srcId none) destId v
                      tempDiskFiles :=
                        mapDel (mapSet st.tempDiskFiles username destination movedDisk)
                          username resource.path },
                    Responses.created)
                match destinationResource with
                | some d =>
                  if overwrite then
                    let stA :=
                      if jsTruthy d.tempDiskId then
                        { st with diskStore := storeSet st.diskStore (d.tempDiskId.getD []) none }
                      else st
                    let stB := if ¬ d.isVirtual then backendUnlink stA d.path else stA
                    let v := stB.diskStore srcId
                    let stC :=
                      { stB with
                        diskStore := storeSet (storeSet stB.diskStore srcId none) destId v
                        tempDiskFiles :=
                          mapDel (mapSet stB.tempDiskFiles username destination movedDisk)
                            username resource.path }
                    (stC, Responses.noContent)
                  else fallback
                | none => fallback
              else
                let fallback := (backendRename st resource.path destination, Responses.created)
                match destinationResource with
                | some d =>
                  if overwrite then
                    (backendRename (backendUnlink st d.path) resource.path destination,
                      Responses.noContent)
                  else fallback
                | none => fallback

/-- `handlers/copy.ts` `Copy.handle`: the same validation as `MOVE`, then a
copy within the source's tier (virtual map insert / scratch-file copy /
backend `cp`), purging an overwritten destination first (scratch file removed,
backend overwrite unlinked with `permanent: true` for virtual and disk
sources, `permanent: false` for backend sources). -/
def copyHandle (st : ServerState) (env : Env) (username rawUrl : JSStr)
    (destinationHeader overwriteHeader : Option JSStr) (hostname protocol : JSStr) :
    ServerState × Resp :=
  let overwrite := overwriteHeader = some ("T".data)
  match destinationHeader with
  | none => (st, Responses.badRequest)
  | some dh =>
    if ¬ (jsIncludes dh hostname) ∨ ¬ (jsIncludes dh protocol) then (st, Responses.badRequest)
    else
      match env.parseURLPathname dh with
      | none => (st, Responses.badRequest)
      | some pathname =>
        let destination := env.decodeURI pathname
        if ("..".data).isPrefixOf destination ∨ ("./".data).isPrefixOf destination
            ∨ ("../".data).isPrefixOf destination then
          (st, Responses.forbidden)
        else
          let destinationResource := pathToResource st env username (removeLastSlash destination)
          match urlToResource st env username rawUrl with
          | none => (st, Responses.notFound)
          | some resource =>
            if resource.path = destination then (st, Responses.created)
            else if ¬ overwrite ∧ destinationResource.isSome then (st, Responses.alreadyExists)
            else if ¬ env.sdkPresent then (st, Responses.notAuthorized)
            else
              let copied : Resource :=
                { resource with
                  url := destination
                  path := destination
                  name := posixBasename destination }
              if resource.isVirtual then
                let fallback :=
                  ({ st with
                      virtualFiles := mapSet st.virtualFiles username destination copied },
                    Responses.created)
                match destinationResource with
                | some d =>
                  if overwrite then
                    let stA :=
                      if jsTruthy d.tempDiskId then
                        { st with diskStore := storeSet st.diskStore (d.tempDiskId.getD []) none }
                      else st
                    let stB := if ¬ d.isVirtual then backendUnlink stA d.path else stA
                    let stC :=
                      { stB with
                        virtualFiles := mapSet stB.virtualFiles username destination copied }
                    (stC, Responses.noContent)
                  else fallback
                | none => fallback
              else if jsTruthy resource.tempDiskId then
                let srcId := resource.tempDiskId.getD []
                let destId := env.tempDiskFileId destination username
                let copiedDisk : Resource := { copied with tempDiskId := some destId }
                let fallback :=
                  ({ st with
                      diskStore := storeSet st.diskStore destId (st.diskStore srcId)
                      tempDiskFiles := mapSet st.tempDiskFiles username destination copiedDisk },
                    Responses.created)
                match destinationResource with
                | some d =>
                  if overwrite then
                    let stA :=
                      if jsTruthy d.tempDiskId then
                        { st with diskStore := storeSet st.diskStore (d.tempDiskId.getD []) none }
                      else st
                    let stB := if ¬ d.isVirtual then backendUnlink stA d.path else stA
                    let stC :=
                      { stB with
                        diskStore := storeSet stB.diskStore destId (stB.diskStore srcId)
                        tempDiskFiles := mapSet stB.tempDiskFiles username destination copiedDisk }
                    (stC, Responses.noContent)
                  else fallback
                | none => fallback
              else
                let fallback := (backendCp st resource.path destination, Responses.created)
                match destinationResource with
                | some d =>
                  if overwrite then
                    (backendCp (backendUnlink st d.path) resource.path destination,
                      Responses.noContent)
                  else fallback
                | none => fallback

/-- The byte source `Get.handle` streams from: the scratch file when
`resource.tempDiskId` is truthy, else the backend download stream of the
resource's uuid (mirrors the final branch of `Get.handle`). -/
def contentOf (st : ServerState) (r : Resource) : Option (List Nat) :=
  if jsTruthy r.tempDiskId then st.diskStore (r.tempDiskId.getD [])
  else st.backend.content r.uuid

/-- The ten decimal digit characters. -/
def digitChars : List Char := ['0', '1', '2', '3', '4', '5', '6', '7', '8', '9']

/-- A string made of decimal digits only. -/
abbrev allDigits (l : JSStr) : Prop := ∀ c ∈ l, c ∈ digitChars

/-- The environment used by the concrete witness scenarios: identity URI
decoding (the scenario URLs contain no escapes), no mime table, no
`tempFilesToStoreOnDisk` matcher, and an SDK bound to the user. -/
def cEnv : Env :=
  { decodeURI := fun s => s
    parseURLPathname := fun _ => none
    mimeLookup := fun _ => none
    putMatcher := none
    tempDiskFileId := fun p u => u ++ p
    uploadChunkSize := 1048576
    now := 1000
    sdkPresent := true }

/-- `cEnv` with a `Destination` parser resolving to `/b.txt` (for the
`MOVE`/`COPY` scenarios). -/
def cMoveEnv : Env := { cEnv with parseURLPathname := fun _ => some ("/a.txt".data) }

/-- `cEnv` with a `tempFilesToStoreOnDisk` matcher for `/Thumbs.db`. -/
def cGlobEnv : Env := { cEnv with putMatcher := some (fun p => p = ("/Thumbs.db".data)) }

/-- The authenticated username of the concrete scenarios. -/
def cUser : JSStr := "alice".data

/-- Backend root directory metadata. -/
def rootStats : Stats :=
  { type := .directory, uuid := 0, name := [], size := 0, chunks := 0, mtimeMs := 0,
    birthtimeMs := 0, lastModified := 0, mime := [], key := [], bucket := [], region := [],
    version := 2 }

/-- Backend metadata of the five-byte file `/a.txt` of the scenarios. -/
def fileStats : Stats :=
  { type := .file, uuid := 1, name := "a.txt".data, size := 5, chunks := 1, mtimeMs := 0,
    birthtimeMs := 0, lastModified := 0, mime := [], key := [], bucket := [], region := [],
    version := 2 }

/-- Backend metadata of the directory `/d` of the scenarios. -/
def subdirStats : Stats :=
  { type := .directory, uuid := 2, name := "d".data, size := 0, chunks := 0, mtimeMs := 0,
    birthtimeMs := 0, lastModified := 0, mime := [], key := [], bucket := [], region := [],
    version := 2 }

/-- A server state with an empty overlay and only the backend root. -/
def baseState : ServerState :=
  { virtualFiles := fun _ _ => none
    tempDiskFiles := fun _ _ => none
    diskStore := fun _ => none
    backend :=
      { items := fun p => if p = ['/'] then some rootStats else none
        content := fun _ => none
        baseFolderUUID := 0 }
    nextUuid := 10 }

/-- `baseState` plus the backend file `/a.txt` with content `hello` and the
backend directory `/d`. -/
def cState : ServerState :=
  { baseState with
    backend :=
      { items := fun p =>
          if p = ("/a.txt".data) then some fileStats
          else if p = ("/d".data) then some subdirStats
          else if p = ['/'] then some rootStats
          else none
        content := fun u' => if u' = 1 then some [104, 101, 108, 108, 111] else none
        baseFolderUUID := 0 } }

/-- The state after an empty `PUT /v.txt` on `baseState`: it holds the
virtual file `/v.txt`. -/
def vState : ServerState := (putHandle baseState cEnv cUser ("/v.txt".data) []).st

/-- The backend-tier resource `/a.txt` as resolved from `cState`. -/
def cFileRes : Resource := statsToResource cState.backend fileStats ("/a.txt".data)

/-- The backend-tier directory resource `/d` as resolved from `cState`. -/
def cDirRes : Resource := statsToResource cState.backend subdirStats ("/d".data)


theorem jsSplitChar_ne_nil (c : Char) (l : JSStr) : jsSplitChar c l ≠ [] := by
  induction l with
  | nil => simp [jsSplitChar]
  | cons x xs ih =>
    simp only [jsSplitChar]
    cases h : jsSplitChar c xs with
    | nil => simp
    | cons t ts =>
      by_cases hx : x = c <;> simp [hx]

theorem jsSplitChar_not_mem {c : Char} {l : JSStr} (h : c ∉ l) : jsSplitChar c l = [l] := by
  induction l with
  | nil => rfl
  | cons x xs ih =>
    have hx : x ≠ c := fun e => h (e ▸ List.mem_cons_self x xs)
    have hxs : c ∉ xs := fun m => h (List.mem_cons_of_mem x m)
    simp only [jsSplitChar, ih hxs, hx, if_false]

theorem jsSplitChar_append {c : Char} {l₁ : JSStr} (l₂ : JSStr) (h : c ∉ l₁) :
    jsSplitChar c (l₁ ++ c :: l₂) = l₁ :: jsSplitChar c l₂ := by
  induction l₁ with
  | nil =>
    simp only [List.nil_append, jsSplitChar]
    cases hs : jsSplitChar c l₂ with
    | nil => exact absurd hs (jsSplitChar_ne_nil c l₂)
    | cons t ts => simp
  | cons x xs ih =>
    have hx : x ≠ c := fun e => h (e ▸ List.mem_cons_self x xs)
    have hxs : c ∉ xs := fun m => h (List.mem_cons_of_mem x m)
    simp only [List.cons_append, jsSplitChar, List.append_eq]
    rw [ih hxs]
    simp [hx]

theorem jsSplitChar_cons_self (c : Char) (l : JSStr) :
    jsSplitChar c (c :: l) = [] :: jsSplitChar c l := by
  simpa using @jsSplitChar_append c [] l (by simp)

theorem mem_digitChars_isDigit {c : Char} (h : c ∈ digitChars) : c.isDigit = true := by
  fin_cases h <;> decide

theorem mem_digitChars_not_ws {c : Char} (h : c ∈ digitChars) : c.isWhitespace = false := by
  fin_cases h <;> decide

theorem mem_digitChars_ne {c d : Char} (h : c ∈ digitChars) (hd : d ∉ digitChars) : c ≠ d := by
  intro e
  exact hd (e ▸ h)

theorem allDigits_takeWhile {l : JSStr} (h : allDigits l) :
    l.takeWhile (fun c => c.isDigit) = l :=
  List.takeWhile_eq_self_iff.mpr fun c hc => mem_digitChars_isDigit (h c hc)

theorem jsParseInt_digits {l : JSStr} (h : allDigits l) (hne : l ≠ []) :
    jsParseInt l = some (digitsVal l) := by
  cases l with
  | nil => exact absurd rfl hne
  | cons d rest =>
    have hd : d ∈ digitChars := h d (List.mem_cons_self d rest)
    have hws : d.isWhitespace = false := mem_digitChars_not_ws hd
    have hdrop : (d :: rest).dropWhile (fun c => c.isWhitespace) = d :: rest := by
      simp [List.dropWhile_cons, hws]
    have hminus : d ≠ '-' := mem_digitChars_ne hd (by decide)
    have hplus : d ≠ '+' := mem_digitChars_ne hd (by decide)
    simp only [jsParseInt, hdrop, List.head?_cons, Option.some.injEq]
    rw [if_neg (by simpa using hminus), if_neg (by simpa using hplus)]
    simp [leadingDigits, allDigits_takeWhile h]

theorem not_mem_range_value {da db : JSStr} {d : Char} (hda : allDigits da)
    (hdb : allDigits db) (hd : d ∉ digitChars) (hdash : d ≠ '-') : d ∉ da ++ '-' :: db := by
  intro hmem
  rcases List.mem_append.mp hmem with hmem | hmem
  · exact (mem_digitChars_ne (hda d hmem) hd) rfl
  · rcases List.mem_cons.mp hmem with rfl | hmem
    · exact hdash rfl
    · exact (mem_digitChars_ne (hdb d hmem) hd) rfl

theorem parseByteRange_render (da db : JSStr) (S : Int)
    (hda : allDigits da) (hdb : allDigits db) (na : da ≠ []) (nb : db ≠ []) :
    parseByteRange (("bytes=".data) ++ da ++ '-' :: db) S =
      if (digitsVal db : Int) ≥ S ∨ (digitsVal da : Int) > (digitsVal db : Int) then none
      else some ((digitsVal da : Int), (digitsVal db : Int)) := by
  have hshape : ("bytes=".data) ++ da ++ '-' :: db
      = ("bytes".data) ++ '=' :: (da ++ '-' :: db) := by
    have : ("bytes=".data) = ("bytes".data) ++ ['='] := by decide
    simp [this]
  have hnomem : '=' ∉ da ++ '-' :: db :=
    not_mem_range_value hda hdb (by decide) (by decide)
  have hsplit1 : jsSplitChar '=' (("bytes=".data) ++ da ++ '-' :: db)
      = ("bytes".data) :: [da ++ '-' :: db] := by
    rw [hshape, jsSplitChar_append _ (by decide), jsSplitChar_not_mem hnomem]
  have hdashda : '-' ∉ da := fun hmem => (mem_digitChars_ne (hda _ hmem) (by decide)) rfl
  have hdashdb : '-' ∉ db := fun hmem => (mem_digitChars_ne (hdb _ hmem) (by decide)) rfl
  have hsplit2 : jsSplitChar '-' (da ++ '-' :: db) = da :: [db] := by
    rw [jsSplitChar_append _ hdashda, jsSplitChar_not_mem hdashdb]
  have hrvne : da ++ '-' :: db ≠ [] := by simp
  simp only [parseByteRange, hsplit1, hsplit2, List.getElem?_cons_zero,
    List.getElem?_cons_succ, Option.getD_some]
  rw [if_neg (by simp [hrvne])]
  rw [if_neg (by simp [na])]
  rw [jsParseInt_digits hda na]
  simp only [nb, if_false, jsParseInt_digits hdb nb]
  have hnn : ¬ ((digitsVal da : Int) < 0) := by simp
  simp only [Option.pure_def, Option.bind_eq_bind, Option.some_bind]
  by_cases hcond : (digitsVal db : Int) ≥ S ∨ (digitsVal da : Int) > (digitsVal db : Int)
  · rw [if_pos hcond, if_pos (by tauto)]
  · rw [if_neg hcond, if_neg (by tauto)]

theorem parseByteRange_render_none (da db : JSStr) (S : Int)
    (hda : allDigits da) (hdb : allDigits db) (na : da ≠ []) (nb : db ≠ [])
    (h : (digitsVal db : Int) ≥ S ∨ (digitsVal da : Int) > (digitsVal db : Int)) :
    parseByteRange (("bytes=".data) ++ da ++ '-' :: db) S = none := by
  rw [parseByteRange_render da db S hda hdb na nb, if_pos h]

theorem parseByteRange_render_some (da db : JSStr) (S : Int)
    (hda : allDigits da) (hdb : allDigits db) (na : da ≠ []) (nb : db ≠ [])
    (h1 : (digitsVal da : Int) ≤ (digitsVal db : Int)) (h2 : (digitsVal db : Int) < S) :
    parseByteRange (("bytes=".data) ++ da ++ '-' :: db) S
      = some ((digitsVal da : Int), (digitsVal db : Int)) := by
  rw [parseByteRange_render da db S hda hdb na nb, if_neg (by omega)]

theorem headHandle_resolved {st : ServerState} {env : Env} {u rawUrl : JSStr} {r : Resource}
    (range : JSStr) (hres : urlToResource st env u rawUrl = some r)
    (hfile : r.type = FType.file) (hne : range ≠ []) :
    headHandle st env u rawUrl (some range) none =
      match parseByteRange range r.size with
      | none => { status := 400 }
      | some (s, e) =>
        { status := 206, contentLength := some (e - s + 1), contentRange := some (s, e, r.size),
          contentType := some ((env.mimeLookup r.name).getD octetStream), acceptRanges := true } := by
  have hdir : (r.type = FType.directory) = False := by simp [hfile]
  simp only [headHandle, hres, hdir, if_false, jsOrStr, jsTruthy, hne, ne_eq,
    not_false_eq_true, if_true, Option.getD_some]
  cases hp : parseByteRange range r.size with
  | none => simp [hp, hne]
  | some se =>
    obtain ⟨s, e⟩ := se
    simp [hp, jsTruthy, hne]

theorem getHandle_resolved {st : ServerState} {env : Env} {u rawUrl : JSStr} {r : Resource}
    (range : JSStr) (hres : urlToResource st env u rawUrl = some r)
    (hfile : r.type = FType.file) (hvirt : r.isVirtual = false)
    (hsdk : env.sdkPresent = true) (hne : range ≠ []) :
    getHandle st env u rawUrl (some range) none =
      match parseByteRange range r.size with
      | none => Responses.badRequest
      | some (s, e) =>
        { status := 206, contentLength := some (e - s + 1), contentRange := some (s, e, r.size),
          contentType := some ((env.mimeLookup r.name).getD octetStream), acceptRanges := true,
          body := (contentOf st r).map (listSlice s e) } := by
  have hdir : (r.type = FType.directory) = False := by simp [hfile]
  simp only [getHandle, hres, hdir, if_false, hvirt, Bool.false_eq_true, hsdk, not_true_eq_false,
    jsOrStr, jsTruthy, hne, ne_eq, not_false_eq_true, if_true, Option.getD_some]
  cases hp : parseByteRange range r.size with
  | none => simp [hp, hne]
  | some se =>
    obtain ⟨s, e⟩ := se
    simp [hp, jsTruthy, hne, contentOf]

theorem getHandle_resolved_norange {st : ServerState} {env : Env} {u rawUrl : JSStr}
    {r : Resource} (hres : urlToResource st env u rawUrl = some r)
    (hfile : r.type = FType.file) (hvirt : r.isVirtual = false)
    (hsdk : env.sdkPresent = true) :
    getHandle st env u rawUrl none none =
      { status := 200, contentLength := some r.size,
        contentType := some ((env.mimeLookup r.name).getD octetStream), acceptRanges := true,
        body := (contentOf st r).map (listSlice 0 (r.size - 1)) } := by
  have hdir : (r.type = FType.directory) = False := by simp [hfile]
  simp only [getHandle, hres, hdir, if_false, hvirt, Bool.false_eq_true, hsdk, not_true_eq_false,
    jsOrStr, jsTruthy]
  simp [contentOf, jsTruthy]

theorem listSlice_full (l : List Nat) (S : Int) (h : (l.length : Int) = S) :
    listSlice 0 (S - 1) l = l := by
  rw [← h]
  simp [listSlice]

theorem backendMkdir_virtualFiles (st : ServerState) (p : JSStr) :
    (backendMkdir st p).virtualFiles = st.virtualFiles := by
  unfold backendMkdir
  split <;> rfl

theorem backendMkdir_tempDiskFiles (st : ServerState) (p : JSStr) :
    (backendMkdir st p).tempDiskFiles = st.tempDiskFiles := by
  unfold backendMkdir
  split <;> rfl

theorem parseByteRange_none_of_bad (range : JSStr) (S : Int)
    (hbad : (jsSplitChar '=' range)[0]? ≠ some ("bytes".data) ∨
            ((jsSplitChar '=' range)[1]?.getD []).head? = some '-') :
    parseByteRange range S = none := by
  rcases hbad with hbad | hbad
  · simp only [parseByteRange]
    rw [if_pos (Or.inl hbad)]
  · cases h1 : (jsSplitChar '=' range)[1]? with
    | none =>
      simp only [parseByteRange]
      rw [if_pos (Or.inr (Or.inl h1))]
    | some rv =>
      cases rv with
      | nil =>
        simp only [parseByteRange]
        rw [if_pos (Or.inr (Or.inr h1))]
      | cons c rest =>
        have hc : c = '-' := by
          rw [h1] at hbad
          simpa using hbad
        subst hc
        by_cases hunit : (jsSplitChar '=' range)[0]? = some ("bytes".data)
        · simp only [parseByteRange, h1, hunit, Option.getD_some]
          rw [if_neg (by simp), jsSplitChar_cons_self]
          rw [if_pos (Or.inr (by simp))]
        · simp only [parseByteRange]
          rw [if_pos (Or.inl hunit)]

/-- C2 (code_bug): in proxy mode, a Basic credential whose password field is
`password=<secret>&twoFactorAuthentication=<otp>` (otp of length ≥ 6) never
reaches the backend login: `filenAuth` parses the otp but leaves
`parsedPassword` unset in that branch and throws `Could not parse password.`,
so the middleware responds `401`.  The claim (and the spec) say the first such
request triggers a backend login with the parsed secret and otp. -/
theorem C2_twofactor_login_never_attempted :
    filenAuthAttempt none ("user@x.y".data) ("password=p&twoFactorAuthentication=123456".data)
      = FilenAuthResult.thrown ("Could not parse password.".data) ∧
    basicAuth true ("admin".data) ("admin".data) none
      ("user@x.y:password=p&twoFactorAuthentication=123456".data)
      = BasicOutcome.filen (FilenAuthResult.thrown ("Could not parse password.".data)) := by
  decide

/-- C7 (amended): `GET` and `HEAD` agree on missing resources (`404`), but not
on directories: `GET` answers a directory with the `404` multi-status
(`Responses.notFound`) while `HEAD` answers `403` (`Responses.forbidden`). -/
theorem C7_get_head_prechecks (st : ServerState) (env : Env) (u rawUrl : JSStr)
    (rangeHdr contentRangeHdr : Option JSStr) :
    (urlToResource st env u rawUrl = none →
      getHandle st env u rawUrl rangeHdr contentRangeHdr = Responses.notFound ∧
      headHandle st env u rawUrl rangeHdr contentRangeHdr = Responses.notFound) ∧
    (∀ r, urlToResource st env u rawUrl = some r → r.type = FType.directory →
      getHandle st env u rawUrl rangeHdr contentRangeHdr = Responses.notFound ∧
      headHandle st env u rawUrl rangeHdr contentRangeHdr = Responses.forbidden) := by
  constructor
  · intro h
    constructor <;> simp [getHandle, headHandle, h]
  · intro r h hdir
    constructor <;> simp [getHandle, headHandle, h, hdir]

/-- C7 counterexample: `GET /d` on a backend directory responds `404`, not the
`403` the claim requires for directories. -/
theorem C7_get_directory_404_counterexample :
    optIsDirectory (urlToResource cState cEnv cUser ("/d".data)) = true ∧
    (getHandle cState cEnv cUser ("/d".data) none none).status = 404 ∧
    (getHandle cState cEnv cUser ("/d".data) none none).status ≠ 403 := by
  decide

/-- C7 witness: the amended theorem applied to the concrete directory `/d`. -/
theorem C7_get_head_prechecks_witness :
    urlToResource cState cEnv cUser ("/d".data) = some cDirRes ∧
    cDirRes.type = FType.directory ∧
    getHandle cState cEnv cUser ("/d".data) none none = Responses.notFound ∧
    headHandle cState cEnv cUser ("/d".data) none none = Responses.forbidden :=
  ⟨by decide, by decide,
    ((C7_get_head_prechecks cState cEnv cUser ("/d".data) none none).2 cDirRes
      (by decide) (by decide)).1,
    ((C7_get_head_prechecks cState cEnv cUser ("/d".data) none none).2 cDirRes
      (by decide) (by decide)).2⟩

/-- C9 (amended): `MKCOL` with a missing or non-directory parent responds
`403` (`Responses.forbidden`), not `412`, and leaves the state unchanged. -/
theorem C9_mkcol_parent_forbidden (st : ServerState) (env : Env) (u rawUrl : JSStr)
    (hpar : optNotDirectory (pathToResource st env u (posixDirname (env.decodeURI
      (if rawUrl.getLast? = some '/' then rawUrl.dropLast else rawUrl)))) = true) :
    mkcolHandle st env u rawUrl = (st, Responses.forbidden) := by
  simp only [mkcolHandle, hpar, if_true]

/-- C9 counterexample: `MKCOL /a/b` with no `/a` anywhere responds `403`, not
the `412` the claim requires. -/
theorem C9_mkcol_missing_parent_403_counterexample :
    pathToResource baseState cEnv cUser ("/a".data) = none ∧
    (mkcolHandle baseState cEnv cUser ("/a/b".data)).2.status = 403 ∧
    (mkcolHandle baseState cEnv cUser ("/a/b".data)).2.status ≠ 412 := by
  decide

/-- C9 witness: the amended theorem applied to `MKCOL /a/b` on the bare
state. -/
theorem C9_mkcol_parent_forbidden_witness :
    optNotDirectory (pathToResource baseState cEnv cUser (posixDirname (cEnv.decodeURI
      (if ("/a/b".data).getLast? = some '/' then ("/a/b".data).dropLast
        else ("/a/b".data))))) = true ∧
    mkcolHandle baseState cEnv cUser ("/a/b".data) = (baseState, Responses.forbidden) :=
  ⟨by decide, C9_mkcol_parent_forbidden baseState cEnv cUser ("/a/b".data) (by decide)⟩

/-- C10 (amended): a `Range` header whose unit is not `bytes`, or whose first
position is empty (a suffix range such as `bytes=-500`), fails to parse; for
an existing file `HEAD` rejects it with `400`, and `GET` rejects it with `400`
when the file is not virtual (a virtual file is answered `200` with an empty
body before the range is ever inspected), so a last-N-bytes suffix range is
never served. -/
theorem C10_bad_unit_or_suffix_rejected (st : ServerState) (env : Env) (u rawUrl : JSStr)
    (r : Resource) (range : JSStr)
    (hres : urlToResource st env u rawUrl = some r)
    (hfile : r.type = FType.file)
    (hsdk : env.sdkPresent = true)
    (hne : range ≠ [])
    (hbad : (jsSplitChar '=' range)[0]? ≠ some ("bytes".data) ∨
            ((jsSplitChar '=' range)[1]?.getD []).head? = some '-') :
    parseByteRange range r.size = none ∧
    headHandle st env u rawUrl (some range) none = { status := 400 } ∧
    (r.isVirtual = false →
      getHandle st env u rawUrl (some range) none = Responses.badRequest) := by
  have hp := parseByteRange_none_of_bad range r.size hbad
  refine ⟨hp, ?_, ?_⟩
  · rw [headHandle_resolved range hres hfile hne, hp]
  · intro hvirt
    rw [getHandle_resolved range hres hfile hvirt hsdk hne, hp]

/-- C10 counterexample: a `GET` of an existing (virtual) file with the
non-`bytes` range unit `items` is answered `200`, not the `400` the claim
requires. -/
theorem C10_virtual_get_bad_unit_counterexample :
    (urlToResource vState cEnv cUser ("/v.txt".data)).isSome = true ∧
    (getHandle vState cEnv cUser ("/v.txt".data) (some ("items=0-0".data)) none).status = 200 ∧
    (getHandle vState cEnv cUser ("/v.txt".data) (some ("items=0-0".data)) none).status ≠ 400 := by
  decide

/-- C10 witness: the amended theorem applied to the backend file `/a.txt` and
the range `items=0-0`. -/
theorem C10_bad_unit_or_suffix_rejected_witness :
    urlToResource cState cEnv cUser ("/a.txt".data) = some cFileRes ∧
    ("items=0-0".data) ≠ ([] : JSStr) ∧
    parseByteRange ("items=0-0".data) cFileRes.size = none ∧
    headHandle cState cEnv cUser ("/a.txt".data) (some ("items=0-0".data)) none
      = { status := 400 } ∧
    getHandle cState cEnv cUser ("/a.txt".data) (some ("items=0-0".data)) none
      = Responses.badRequest := by
  have h := C10_bad_unit_or_suffix_rejected cState cEnv cUser ("/a.txt".data) cFileRes
    ("items=0-0".data) (by decide) (by decide) (by decide) (by decide) (by decide)
  exact ⟨by decide, by decide, h.1, h.2.1, h.2.2 (by decide)⟩

theorem basicAuth_singleTenant_parts (cfgU cfgP : JSStr) (a b : JSStr) (ts : List JSStr)
    (authed : Option JSStr) (cred : JSStr) (hsplit : jsSplitChar ':' cred = a :: b :: ts) :
    basicAuth false cfgU cfgP authed cred
      = if a ≠ [] ∧ b ≠ [] ∧ a = cfgU ∧ b = cfgP then BasicOutcome.defaultBound cfgU
        else BasicOutcome.rejected := by
  simp only [basicAuth, hsplit, List.getElem?_cons_zero, List.getElem?_cons_succ]
  by_cases h1 : a = [] ∨ b = []
  · rw [if_pos h1, if_neg (by tauto)]
  · rw [if_neg h1, if_neg (by simp)]
    by_cases h2 : a = cfgU ∧ b = cfgP
    · rw [if_pos h2, if_pos (by tauto)]
    · rw [if_neg h2, if_neg (by tauto)]

/-- C5 (amended): in basic single-tenant mode the decoded credential string is
split on `":"` and only its first two fields are compared: authentication
succeeds iff the field before the first colon equals the configured username
and the field between the first and second colon equals the configured
password (both nonempty); bytes after a second colon are ignored, so a
presented password that extends the configured one by a `":"`-separated suffix
is still accepted, and every other credential is rejected with `401`. -/
theorem C5_first_two_fields_auth (cfgU cfgP u p rest : JSStr)
    (hu : ':' ∉ u) (hp : ':' ∉ p) :
    (basicAuth false cfgU cfgP none (u ++ ':' :: p) = BasicOutcome.defaultBound cfgU
       ↔ u ≠ [] ∧ p ≠ [] ∧ u = cfgU ∧ p = cfgP) ∧
    (basicAuth false cfgU cfgP none (u ++ ':' :: (p ++ ':' :: rest))
        = BasicOutcome.defaultBound cfgU
       ↔ u ≠ [] ∧ p ≠ [] ∧ u = cfgU ∧ p = cfgP) ∧
    (∀ cred authed, basicAuth false cfgU cfgP authed cred = BasicOutcome.defaultBound cfgU
       ∨ basicAuth false cfgU cfgP authed cred = BasicOutcome.rejected) := by
  refine ⟨?_, ?_, ?_⟩
  · rw [basicAuth_singleTenant_parts cfgU cfgP u p [] none (u ++ ':' :: p)
      (by rw [jsSplitChar_append p hu, jsSplitChar_not_mem hp])]
    by_cases hc : u ≠ [] ∧ p ≠ [] ∧ u = cfgU ∧ p = cfgP
    · simp [hc]
    · simp only [hc, if_false]
      simp [hc]
  · rw [basicAuth_singleTenant_parts cfgU cfgP u p (jsSplitChar ':' rest) none
      (u ++ ':' :: (p ++ ':' :: rest))
      (by rw [jsSplitChar_append (p ++ ':' :: rest) hu, jsSplitChar_append rest hp])]
    by_cases hc : u ≠ [] ∧ p ≠ [] ∧ u = cfgU ∧ p = cfgP
    · simp [hc]
    · simp only [hc, if_false]
      simp [hc]
  · intro cred authed
    cases hsp : jsSplitChar ':' cred with
    | nil => right; simp [basicAuth, hsp]
    | cons a tl =>
      cases tl with
      | nil => right; simp [basicAuth, hsp]
      | cons b tl2 =>
        rw [basicAuth_singleTenant_parts cfgU cfgP a b tl2 authed cred hsp]
        by_cases hc : a ≠ [] ∧ b ≠ [] ∧ a = cfgU ∧ b = cfgP
        · left; rw [if_pos hc]
        · right; rw [if_neg hc]

/-- C5 counterexample: with configured credentials `user` / `pass`, the
decoded credential string `user:pass:extra` (presented password
`pass:extra`, which differs from the configured password) is accepted. -/
theorem C5_extra_colon_accepted_counterexample :
    basicAuth false ("user".data) ("pass".data) none ("user:pass:extra".data)
      = BasicOutcome.defaultBound ("user".data) ∧
    ("user:pass:extra".data) ≠ ("user".data) ++ ':' :: ("pass".data) := by
  decide

/-- C5 witness: the amended theorem applied to `user` / `pass` with and
without a colon-separated suffix. -/
theorem C5_first_two_fields_auth_witness :
    (':' ∉ ("user".data)) ∧ (':' ∉ ("pass".data)) ∧
    basicAuth false ("user".data) ("pass".data) none (("user".data) ++ ':' :: ("pass".data))
      = BasicOutcome.defaultBound ("user".data) ∧
    basicAuth false ("user".data) ("pass".data) none
        (("user".data) ++ ':' :: (("pass".data) ++ ':' :: ("extra".data)))
      = BasicOutcome.defaultBound ("user".data) :=
  ⟨by decide, by decide,
    (C5_first_two_fields_auth ("user".data) ("pass".data) ("user".data) ("pass".data)
        ("extra".data) (by decide) (by decide)).1.mpr ⟨by decide, by decide, rfl, rfl⟩,
    (C5_first_two_fields_auth ("user".data) ("pass".data) ("user".data) ("pass".data)
        ("extra".data) (by decide) (by decide)).2.1.mpr ⟨by decide, by decide, rfl, rfl⟩⟩

/-- C8 (confirmed): a `MOVE` or `COPY` whose decoded `Destination` path equals
the source resource's path responds `201` and returns the state unchanged: no
tier map, scratch file, or backend entry is touched. -/
theorem C8_move_copy_self_destination_noop
    (st : ServerState) (env : Env) (u rawUrl dh pathname destination : JSStr)
    (ow : Option JSStr) (hostname protocol : JSStr) (r : Resource)
    (hhost : jsIncludes dh hostname = true)
    (hproto : jsIncludes dh protocol = true)
    (hurl : env.parseURLPathname dh = some pathname)
    (hdec : env.decodeURI pathname = destination)
    (hp1 : ("..".data).isPrefixOf destination = false)
    (hp2 : ("./".data).isPrefixOf destination = false)
    (hp3 : ("../".data).isPrefixOf destination = false)
    (hres : urlToResource st env u rawUrl = some r)
    (heq : r.path = destination) :
    moveHandle st env u rawUrl (some dh) ow hostname protocol = (st, Responses.created) ∧
    copyHandle st env u rawUrl (some dh) ow hostname protocol = (st, Responses.created) := by
  constructor
  · simp only [moveHandle, hurl, hdec]
    rw [if_neg (by simp [hhost, hproto])]
    rw [if_neg (by simp [hp1, hp2, hp3])]
    simp only [hres]
    rw [if_pos heq]
  · simp only [copyHandle, hurl, hdec]
    rw [if_neg (by simp [hhost, hproto])]
    rw [if_neg (by simp [hp1, hp2, hp3])]
    simp only [hres]
    rw [if_pos heq]

/-- C8 witness: the no-op theorem applied to `MOVE`/`COPY` of `/a.txt` onto
itself. -/
theorem C8_move_copy_self_destination_noop_witness :
    urlToResource cState cMoveEnv cUser ("/a.txt".data) = some cFileRes ∧
    cFileRes.path = ("/a.txt".data) ∧
    moveHandle cState cMoveEnv cUser ("/a.txt".data) (some ("http://localhost/a.txt".data))
        none ("localhost".data) ("http".data) = (cState, Responses.created) ∧
    copyHandle cState cMoveEnv cUser ("/a.txt".data) (some ("http://localhost/a.txt".data))
        none ("localhost".data) ("http".data) = (cState, Responses.created) := by
  have h := C8_move_copy_self_destination_noop cState cMoveEnv cUser ("/a.txt".data)
    ("http://localhost/a.txt".data) ("/a.txt".data) ("/a.txt".data) none
    ("localhost".data) ("http".data) cFileRes (by decide) (by decide) (by decide) rfl
    (by decide) (by decide) (by decide) (by decide) (by decide)
  exact ⟨by decide, by decide, h.1, h.2⟩

/-- C1 (amended): a single `PUT` preserves mutual exclusivity of the two
in-memory tiers — if a path is not simultaneously in `virtualFiles[u]` and
`tempDiskFiles[u]` before the request, it is not afterwards (each `PUT` branch
purges the other in-memory map).  `PUT` does not, however, exclude the backend
tier (see the counterexample: an empty `PUT` over an existing backend file
leaves the path both virtual-tier and backend-tier). -/
theorem C1_put_preserves_virtual_disk_exclusivity
    (st : ServerState) (env : Env) (u rawUrl : JSStr) (body : List Nat) (u' q : JSStr)
    (h : ¬ ((st.virtualFiles u' q).isSome ∧ (st.tempDiskFiles u' q).isSome)) :
    ¬ ((((putHandle st env u rawUrl body).st.virtualFiles u' q).isSome ∧
        (((putHandle st env u rawUrl body).st.tempDiskFiles u' q).isSome))) := by
  have hv := backendMkdir_virtualFiles st (posixDirname (removeLastSlash (env.decodeURI rawUrl)))
  have ht := backendMkdir_tempDiskFiles st (posixDirname (removeLastSlash (env.decodeURI rawUrl)))
  simp only [putHandle]
  split
  · simpa using h
  · split
    · simpa using h
    · split
      · simpa [hv, ht] using h
      · split
        · simpa [hv, ht] using h
        · split
          · by_cases hk : u' = u ∧ q = removeLastSlash (env.decodeURI rawUrl)
            · simp [mapSet, mapDel, hk]
            · simpa [mapSet, mapDel, hk, hv, ht] using h
          · split
            · by_cases hk : u' = u ∧ q = removeLastSlash (env.decodeURI rawUrl)
              · simp [mapSet, mapDel, hk]
              · simpa [mapSet, mapDel, hk, hv, ht] using h
            · by_cases hk : u' = u ∧ q = removeLastSlash (env.decodeURI rawUrl)
              · simp [mapSet, mapDel, hk]
              · simpa [mapSet, mapDel, hk, hv, ht] using h

/-- C1 counterexample: an empty `PUT /a.txt` over the existing backend file
`/a.txt` responds `201` and leaves the path present in the virtual tier and in
the backend (as observed via `stat`) at the same time — two tiers at once. -/
theorem C1_two_tiers_counterexample :
    ((putHandle cState cEnv cUser ("/a.txt".data) []).st.virtualFiles cUser
      ("/a.txt".data)).isSome = true ∧
    ((putHandle cState cEnv cUser ("/a.txt".data) []).st.backend.items
      ("/a.txt".data)).isSome = true ∧
    (putHandle cState cEnv cUser ("/a.txt".data) []).resp = Responses.created := by
  decide

/-- C1 witness: the preservation theorem applied to an empty `PUT /a.txt` on
the bare state, observed at the path `/x`. -/
theorem C1_put_preserves_virtual_disk_exclusivity_witness :
    (¬ ((baseState.virtualFiles cUser ("/x".data)).isSome ∧
        (baseState.tempDiskFiles cUser ("/x".data)).isSome)) ∧
    ¬ ((((putHandle baseState cEnv cUser ("/a.txt".data) []).st.virtualFiles cUser
          ("/x".data)).isSome ∧
        (((putHandle baseState cEnv cUser ("/a.txt".data) []).st.tempDiskFiles cUser
          ("/x".data)).isSome))) :=
  ⟨by decide,
    C1_put_preserves_virtual_disk_exclusivity baseState cEnv cUser ("/a.txt".data) []
      cUser ("/x".data) (by decide)⟩

/-- C4 (confirmed): when the `tempFilesToStoreOnDisk` matcher matches the
`PUT` path or its basename, the handler never invokes the backend upload API
(in any branch), and whenever such a request reaches the body stage with a
non-empty body (target not a directory, SDK bound, parent a directory after
`mkdir`), it stores the body in the scratch file named by the request's
`tempDiskId` and records a disk-tier resource for the path, responding
`201`. -/
theorem C4_disk_glob_put_no_upload
    (st : ServerState) (env : Env) (u rawUrl : JSStr) (body : List Nat) (pr : Resource)
    (hmatch : matcherHits env.putMatcher (removeLastSlash (env.decodeURI rawUrl))
        (posixBasename (removeLastSlash (env.decodeURI rawUrl))) = true) :
    (putHandle st env u rawUrl body).uploadCalled = false ∧
    (body ≠ [] →
      optIsDirectory (pathToResource st env u (removeLastSlash (env.decodeURI rawUrl))) = false →
      env.sdkPresent = true →
      pathToResource (backendMkdir st (posixDirname (removeLastSlash (env.decodeURI rawUrl))))
          env u (posixDirname (removeLastSlash (env.decodeURI rawUrl))) = some pr →
      pr.type = FType.directory →
      (putHandle st env u rawUrl body).resp = Responses.created ∧
      (putHandle st env u rawUrl body).st.diskStore
          (env.tempDiskFileId (removeLastSlash (env.decodeURI rawUrl)) u) = some body ∧
      ∃ res, (putHandle st env u rawUrl body).st.tempDiskFiles u
          (removeLastSlash (env.decodeURI rawUrl)) = some res ∧
        res.tempDiskId = some (env.tempDiskFileId (removeLastSlash (env.decodeURI rawUrl)) u) ∧
        res.isVirtual = false ∧ res.size = (body.length : Int)) := by
  constructor
  · simp only [putHandle, hmatch, if_true]
    split
    · rfl
    · split
      · rfl
      · split
        · rfl
        · split
          · rfl
          · split <;> rfl
  · intro hbody hnd hsdk hparent hpdir
    have hbody' : (body = []) = False := by simp [hbody]
    have hpd : (pr.type ≠ FType.directory) = False := by simp [hpdir]
    simp only [putHandle, hnd, Bool.false_eq_true, if_false, hsdk, not_true_eq_false,
      hparent, hpd, hbody', hmatch, if_true]
    refine ⟨by simp, ?_, ?_⟩
    · simp [storeSet]
    · simp only [mapSet, and_self, eq_self_iff_true, if_true]
      exact ⟨_, rfl, rfl, rfl, rfl⟩

/-- C4 witness: the theorem applied to `PUT /Thumbs.db` with body `zz` under
a matcher for `/Thumbs.db`. -/
theorem C4_disk_glob_put_no_upload_witness :
    matcherHits cGlobEnv.putMatcher (removeLastSlash (cGlobEnv.decodeURI ("/Thumbs.db".data)))
      (posixBasename (removeLastSlash (cGlobEnv.decodeURI ("/Thumbs.db".data)))) = true ∧
    (putHandle cState cGlobEnv cUser ("/Thumbs.db".data) [122, 122]).uploadCalled = false ∧
    (putHandle cState cGlobEnv cUser ("/Thumbs.db".data) [122, 122]).resp
      = Responses.created ∧
    (putHandle cState cGlobEnv cUser ("/Thumbs.db".data) [122, 122]).st.diskStore
      (cGlobEnv.tempDiskFileId (removeLastSlash (cGlobEnv.decodeURI ("/Thumbs.db".data))) cUser)
      = some [122, 122] := by
  have h := C4_disk_glob_put_no_upload cState cGlobEnv cUser ("/Thumbs.db".data) [122, 122]
    (statsToResource cState.backend rootStats ['/']) (by decide)
  have h2 := h.2 (by decide) (by decide) (by decide) (by decide) (by decide)
  exact ⟨by decide, h.1, h2.1, h2.2.1⟩

/-- C3 (confirmed): an empty-body `PUT` (target not a directory, SDK bound,
parent a directory after `mkdir`, target not the root) stores a virtual
resource (uuid from the fresh-uuid counter, `size` 0, `chunks` 1, `version`
2, mime looked up from the name with the `application/octet-stream` default,
`isVirtual` true) under the path in `virtualFiles[username]`, purges
`tempDiskFiles[username][path]`, responds `201`, and a `GET` of the same URL
against the resulting state responds `200` with `Content-Length` 0 and an
empty body. -/
theorem C3_empty_put_then_get
    (st : ServerState) (env : Env) (u rawUrl : JSStr) (pr : Resource)
    (hroot : env.decodeURI rawUrl ≠ ['/'])
    (hnd : optIsDirectory (pathToResource st env u (removeLastSlash (env.decodeURI rawUrl)))
      = false)
    (hsdk : env.sdkPresent = true)
    (hparent : pathToResource
        (backendMkdir st (posixDirname (removeLastSlash (env.decodeURI rawUrl))))
        env u (posixDirname (removeLastSlash (env.decodeURI rawUrl))) = some pr)
    (hpdir : pr.type = FType.directory) :
    (putHandle st env u rawUrl []).resp = Responses.created ∧
    (putHandle st env u rawUrl []).st.virtualFiles u (removeLastSlash (env.decodeURI rawUrl)) =
      some
        { type := FType.file,
          uuid := (backendMkdir st
            (posixDirname (removeLastSlash (env.decodeURI rawUrl)))).nextUuid,
          name := posixBasename (removeLastSlash (env.decodeURI rawUrl)),
          size := 0, chunks := 1, mtimeMs := env.now, birthtimeMs := env.now,
          lastModified := env.now,
          mime := (env.mimeLookup (posixBasename (removeLastSlash
            (env.decodeURI rawUrl)))).getD octetStream,
          key := [], bucket := [], region := [], version := 2,
          url := removeLastSlash (env.decodeURI rawUrl),
          path := removeLastSlash (env.decodeURI rawUrl),
          isVirtual := true, tempDiskId := none } ∧
    (putHandle st env u rawUrl []).st.tempDiskFiles u (removeLastSlash (env.decodeURI rawUrl))
      = none ∧
    getHandle (putHandle st env u rawUrl []).st env u rawUrl none none =
      { status := 200,
        contentType := some ((env.mimeLookup (posixBasename (removeLastSlash
          (env.decodeURI rawUrl)))).getD octetStream),
        contentLength := some 0, body := some [] } := by
  have hpd : (pr.type ≠ FType.directory) = False := by simp [hpdir]
  have hurl : (if env.decodeURI rawUrl = ['/'] then env.decodeURI rawUrl
      else removeLastSlash (env.decodeURI rawUrl)) = removeLastSlash (env.decodeURI rawUrl) :=
    if_neg hroot
  simp only [putHandle, hnd, Bool.false_eq_true, if_false, hsdk, not_true_eq_false, hparent,
    hpd, if_true]
  refine ⟨by simp, by simp [mapSet], by simp [mapDel], ?_⟩
  simp only [getHandle, urlToResource, hurl]
  simp [mapSet]

/-- C3 witness: the theorem applied to an empty `PUT /a.txt` on the bare
state followed by `GET /a.txt`. -/
theorem C3_empty_put_then_get_witness :
    cEnv.decodeURI ("/a.txt".data) ≠ ['/'] ∧
    (putHandle baseState cEnv cUser ("/a.txt".data) []).resp = Responses.created ∧
    ((putHandle baseState cEnv cUser ("/a.txt".data) []).st.virtualFiles cUser
      (removeLastSlash (cEnv.decodeURI ("/a.txt".data)))).isSome = true ∧
    (putHandle baseState cEnv cUser ("/a.txt".data) []).st.tempDiskFiles cUser
      (removeLastSlash (cEnv.decodeURI ("/a.txt".data))) = none ∧
    getHandle (putHandle baseState cEnv cUser ("/a.txt".data) []).st cEnv cUser
        ("/a.txt".data) none none =
      { status := 200,
        contentType := some ((cEnv.mimeLookup (posixBasename (removeLastSlash
          (cEnv.decodeURI ("/a.txt".data))))).getD octetStream),
        contentLength := some 0, body := some [] } := by
  have h := C3_empty_put_then_get baseState cEnv cUser ("/a.txt".data)
    (statsToResource baseState.backend rootStats ['/']) (by decide) (by decide) (by decide)
    (by decide) (by decide)
  exact ⟨by decide, h.1, by rw [h.2.1]; rfl, h.2.2.1, h.2.2.2⟩

/-- C6 (amended): for a resolved file and a `Range: bytes=a-b` header (decimal
digit strings rendering `a` and `b`): when `a > b` or `b ≥ size` the range
fails to parse and `HEAD` responds `400` (any file) as does `GET` (non-virtual
files); otherwise `HEAD` and `GET` respond `206` with `Content-Range`
`bytes a-b/size` and `Content-Length` `b-a+1`, the `GET` body is exactly bytes
`[a..b]` of the file content, and a full `GET` of the same URL returns the
whole content.  A `GET` of a virtual file responds `200` with an empty body
regardless of any `Range` header (see the counterexample). -/
theorem C6_range_semantics
    (st : ServerState) (env : Env) (u rawUrl : JSStr) (r : Resource)
    (da db : JSStr) (a b : Nat) (content : List Nat)
    (hres : urlToResource st env u rawUrl = some r)
    (hfile : r.type = FType.file)
    (hsdk : env.sdkPresent = true)
    (hda : allDigits da) (hdb : allDigits db) (hna : da ≠ []) (hnb : db ≠ [])
    (hva : digitsVal da = a) (hvb : digitsVal db = b) :
    (((a : Int) > (b : Int) ∨ (b : Int) ≥ r.size →
      headHandle st env u rawUrl (some (("bytes=".data) ++ da ++ '-' :: db)) none
        = { status := 400 } ∧
      (r.isVirtual = false →
        getHandle st env u rawUrl (some (("bytes=".data) ++ da ++ '-' :: db)) none
          = Responses.badRequest))) ∧
    ((a : Int) ≤ (b : Int) → (b : Int) < r.size →
      headHandle st env u rawUrl (some (("bytes=".data) ++ da ++ '-' :: db)) none
        = { status := 206, contentLength := some ((b : Int) - (a : Int) + 1),
            contentRange := some ((a : Int), (b : Int), r.size),
            contentType := some ((env.mimeLookup r.name).getD octetStream),
            acceptRanges := true } ∧
      (r.isVirtual = false → contentOf st r = some content →
        (content.length : Int) = r.size →
        getHandle st env u rawUrl (some (("bytes=".data) ++ da ++ '-' :: db)) none
          = { status := 206, contentLength := some ((b : Int) - (a : Int) + 1),
              contentRange := some ((a : Int), (b : Int), r.size),
              contentType := some ((env.mimeLookup r.name).getD octetStream),
              acceptRanges := true,
              body := some (listSlice (a : Int) (b : Int) content) } ∧
        getHandle st env u rawUrl none none
          = { status := 200, contentLength := some r.size,
              contentType := some ((env.mimeLookup r.name).getD octetStream),
              acceptRanges := true, body := some content })) := by
  subst hva
  subst hvb
  have hrne : ("bytes=".data) ++ da ++ '-' :: db ≠ [] := by simp
  constructor
  · intro hcond
    have hp : parseByteRange (("bytes=".data) ++ da ++ '-' :: db) r.size = none := by
      refine parseByteRange_render_none da db r.size hda hdb hna hnb ?_
      rcases hcond with hcond | hcond
      · exact Or.inr hcond
      · exact Or.inl hcond
    refine ⟨?_, fun hvirt => ?_⟩
    · rw [headHandle_resolved _ hres hfile hrne, hp]
    · rw [getHandle_resolved _ hres hfile hvirt hsdk hrne, hp]
  · intro h1 h2
    have hp := parseByteRange_render_some da db r.size hda hdb hna hnb h1 h2
    refine ⟨?_, fun hvirt hcontent hlen => ⟨?_, ?_⟩⟩
    · rw [headHandle_resolved _ hres hfile hrne, hp]
    · rw [getHandle_resolved _ hres hfile hvirt hsdk hrne, hp]
      simp [hcontent]
    · rw [getHandle_resolved_norange hres hfile hvirt hsdk]
      simp [hcontent, listSlice_full content r.size hlen]

/-- C6 counterexample: `GET` of an existing virtual file (size 0) carrying
`Range: bytes=0-0` — the claim requires `400` since `b ≥ size`, but the
handler answers the virtual file with `200` before inspecting the range. -/
theorem C6_virtual_get_ignores_range_counterexample :
    (Option.map (fun r => (r.size, r.isVirtual))
      (urlToResource vState cEnv cUser ("/v.txt".data))) = some (0, true) ∧
    (getHandle vState cEnv cUser ("/v.txt".data) (some ("bytes=0-0".data)) none).status
      = 200 ∧
    (getHandle vState cEnv cUser ("/v.txt".data) (some ("bytes=0-0".data)) none).status
      ≠ 400 := by
  decide

/-- C6 witness: the theorem applied to the five-byte backend file `/a.txt`
with ranges `bytes=1-3` (2xx half) and `bytes=9-9` (400 half). -/
theorem C6_range_semantics_witness :
    urlToResource cState cEnv cUser ("/a.txt".data) = some cFileRes ∧
    contentOf cState cFileRes = some [104, 101, 108, 108, 111] ∧
    headHandle cState cEnv cUser ("/a.txt".data)
        (some (("bytes=".data) ++ ['1'] ++ '-' :: ['3'])) none
      = { status := 206, contentLength := some ((3 : Int) - (1 : Int) + 1),
          contentRange := some ((1 : Int), (3 : Int), cFileRes.size),
          contentType := some ((cEnv.mimeLookup cFileRes.name).getD octetStream),
          acceptRanges := true } ∧
    getHandle cState cEnv cUser ("/a.txt".data)
        (some (("bytes=".data) ++ ['1'] ++ '-' :: ['3'])) none
      = { status := 206, contentLength := some ((3 : Int) - (1 : Int) + 1),
          contentRange := some ((1 : Int), (3 : Int), cFileRes.size),
          contentType := some ((cEnv.mimeLookup cFileRes.name).getD octetStream),
          acceptRanges := true,
          body := some (listSlice ((1 : Nat) : Int) ((3 : Nat) : Int)
            [104, 101, 108, 108, 111]) } ∧
    getHandle cState cEnv cUser ("/a.txt".data) none none
      = { status := 200, contentLength := some cFileRes.size,
          contentType := some ((cEnv.mimeLookup cFileRes.name).getD octetStream),
          acceptRanges := true, body := some [104, 101, 108, 108, 111] } ∧
    headHandle cState cEnv cUser ("/a.txt".data)
        (some (("bytes=".data) ++ ['9'] ++ '-' :: ['9'])) none
      = { status := 400 } := by
  have h := C6_range_semantics cState cEnv cUser ("/a.txt".data) cFileRes ['1'] ['3'] 1 3
    [104, 101, 108, 108, 111] (by decide) (by decide) (by decide)
    (by decide) (by decide) (by decide) (by decide) (by decide) (by decide)
  have h2 := h.2 (by decide) (by decide)
  have h3 := h2.2 (by decide) (by decide) (by decide)
  have h' := C6_range_semantics cState cEnv cUser ("/a.txt".data) cFileRes ['9'] ['9'] 9 9
    [104, 101, 108, 108, 111] (by decide) (by decide) (by decide)
    (by decide) (by decide) (by decide) (by decide) (by decide) (by decide)
  exact ⟨by decide, by decide, h2.1, h3.1, h3.2, (h'.1 (by decide)).1⟩

end FilenWebdav
